import Mathlib

/-!
# A verification development for `django-activitypub`

This file shallowly embeds the federation-protocol core of the
`django-activitypub` repository in Lean 4 and proves properties about it.

The embedding covers:

* `signed_requests.py` — the HTTP-signature codec (`HttpSignature`,
  `build_message`, `build_signature`), the content digest
  (`content_digest_sha256`), the outbound signer (`signed_post`), the
  signature-header deserializer (`parse_signature_header`) and the inbound
  verifier (`SignatureChecker.validate` with `ValidateResult`).
* `models.py` — the `Follower` edge operations used by the inbox, the
  `NoteManager.upsert` / `upsert_remote` store operations and the
  actor-resolution entry point `get_or_create_with_username_domain`.
* `views.py` — the `Undo(Follow)` branch of the inbox dispatcher.
* `webfinger.py` — `finger`'s self-link selection and result dictionary.

Conventions of the embedding:

* Strings are `List Char` (`Str`), so that every operation is structural and
  evaluates inside the kernel.  Python byte strings are `List Nat` with each
  byte `< 256`.
* Python exceptions are modelled with `Except Str`: a raised exception is
  `Except.error msg`, a normal return is `Except.ok v`.
* SHA-256 (`hashlib.sha256`) and standard base64 (`base64.standard_b64encode`
  / `standard_b64decode`) are implemented concretely, so digests compute.
* RSA PKCS#1v1.5 signing/verification from the external `cryptography`
  library is a parameter of the embedding (`signFn` / `Checker.verify`);
  the key-pair correctness property `∀ m, verify (sign m) m = true` enters
  theorems as a hypothesis, never as an axiom.
* Network I/O (`requests.post`, profile fetches) is out of scope: functions
  that in Python both build data and perform a request are embedded up to the
  data they build, and remote fetches become function parameters.
-/

/-- Python strings, as lists of characters. -/
abbrev Str := List Char

/-- Python `bytes`, as lists of naturals (each intended `< 256`). -/
abbrev Bytes := List Nat

/-! ## ASCII case mapping (Python `str.lower` / `str.upper` on ASCII data) -/

/-- Lower-case one ASCII character (identity elsewhere). -/
def lowerChar (c : Char) : Char :=
  if 'A' ≤ c ∧ c ≤ 'Z' then Char.ofNat (c.toNat + 32) else c

/-- Upper-case one ASCII character (identity elsewhere). -/
def upperChar (c : Char) : Char :=
  if 'a' ≤ c ∧ c ≤ 'z' then Char.ofNat (c.toNat - 32) else c

/-- Python `str.lower()` restricted to ASCII input. -/
def lowerStr (s : Str) : Str := s.map lowerChar

/-- Python `str.upper()` restricted to ASCII input. -/
def upperStr (s : Str) : Str := s.map upperChar

/-! ## UTF-8 encoding (Python `str.encode("utf-8")`) -/

/-- UTF-8 bytes of one code point. -/
def utf8Char (n : Nat) : Bytes :=
  if n < 128 then [n]
  else if n < 2048 then [192 + n / 64, 128 + n % 64]
  else if n < 65536 then [224 + n / 4096, 128 + (n / 64) % 64, 128 + n % 64]
  else [240 + n / 262144, 128 + (n / 4096) % 64, 128 + (n / 64) % 64, 128 + n % 64]

/-- Python `s.encode("utf-8")`. -/
def utf8Encode (s : Str) : Bytes := (s.map (fun c => utf8Char c.toNat)).flatten

/-! ## SHA-256 (`hashlib.sha256(content).digest()`), implemented concretely -/

/-- Truncate to a 32-bit word. -/
def w32 (x : Nat) : Nat := x % 4294967296

/-- Rotate a 32-bit word right by `n`. -/
def rotr (n x : Nat) : Nat := (x >>> n) ||| (w32 (x <<< (32 - n)))

/-- The SHA-256 round constants. -/
def sha256K : List Nat :=
  [1116352408, 1899447441, 3049323471, 3921009573, 961987163, 1508970993,
   2453635748, 2870763221, 3624381080, 310598401, 607225278, 1426881987,
   1925078388, 2162078206, 2614888103, 3248222580, 3835390401, 4022224774,
   264347078, 604807628, 770255983, 1249150122, 1555081692, 1996064986,
   2554220882, 2821834349, 2952996808, 3210313671, 3336571891, 3584528711,
   113926993, 338241895, 666307205, 773529912, 1294757372, 1396182291,
   1695183700, 1986661051, 2177026350, 2456956037, 2730485921, 2820302411,
   3259730800, 3345764771, 3516065817, 3600352804, 4094571909, 275423344,
   430227734, 506948616, 659060556, 883997877, 958139571, 1322822218,
   1537002063, 1747873779, 1955562222, 2024104815, 2227730452, 2361852424,
   2428436474, 2756734187, 3204031479, 3329325298]

/-- The SHA-256 initial hash state. -/
def sha256H0 : List Nat :=
  [1779033703, 3144134277, 1013904242, 2773480762,
   1359893119, 2600822924, 528734635, 1541459225]

/-- σ₀ of the message schedule. -/
def ssig0 (x : Nat) : Nat := (rotr 7 x) ^^^ (rotr 18 x) ^^^ (x >>> 3)

/-- σ₁ of the message schedule. -/
def ssig1 (x : Nat) : Nat := (rotr 17 x) ^^^ (rotr 19 x) ^^^ (x >>> 10)

/-- Pack big-endian groups of four bytes into 32-bit words. -/
def toWords : Bytes → List Nat
  | a :: b :: c :: d :: rest => (((a * 256 + b) * 256 + c) * 256 + d) :: toWords rest
  | _ => []

/-- Extend the 16 block words to 64 schedule words; `acc` holds the words
computed so far, most recent first. -/
def sha256Extend : Nat → List Nat → List Nat
  | 0, acc => acc.reverse
  | n + 1, acc =>
    let t := w32 (ssig1 (acc.getD 1 0) + acc.getD 6 0 + ssig0 (acc.getD 14 0) + acc.getD 15 0)
    sha256Extend n (t :: acc)

/-- The 64 schedule words of one block. -/
def scheduleWords (block : Bytes) : List Nat :=
  sha256Extend 48 (toWords block).reverse

/-- One SHA-256 compression round. -/
def sha256Round (st : List Nat) (kw : Nat × Nat) : List Nat :=
  match st with
  | [a, b, c, d, e, f, g, h] =>
    let s1 := (rotr 6 e) ^^^ (rotr 11 e) ^^^ (rotr 25 e)
    let ch := (e &&& f) ^^^ ((e ^^^ 4294967295) &&& g)
    let t1 := w32 (h + s1 + ch + kw.1 + kw.2)
    let s0 := (rotr 2 a) ^^^ (rotr 13 a) ^^^ (rotr 22 a)
    let mj := (a &&& b) ^^^ (a &&& c) ^^^ (b &&& c)
    let t2 := w32 (s0 + mj)
    [w32 (t1 + t2), a, b, c, w32 (d + t1), e, f, g]
  | other => other

/-- Compress one 64-byte block into the hash state. -/
def sha256Compress (h : List Nat) (block : Bytes) : List Nat :=
  let st := (sha256K.zip (scheduleWords block)).foldl sha256Round h
  List.zipWith (fun x y => w32 (x + y)) h st

/-- SHA-256 padding: `0x80`, zeros to 56 mod 64, then the bit length. -/
def sha256Pad (msg : Bytes) : Bytes :=
  let L := msg.length
  let z := (120 - ((L + 1) % 64)) % 64
  let bits := 8 * L
  msg ++ 128 :: List.replicate z 0 ++
    [(bits >>> 56) % 256, (bits >>> 48) % 256, (bits >>> 40) % 256, (bits >>> 32) % 256,
     (bits >>> 24) % 256, (bits >>> 16) % 256, (bits >>> 8) % 256, bits % 256]

/-- Fold the compression function over the given number of 64-byte blocks. -/
def sha256Blocks : Nat → List Nat → Bytes → List Nat
  | 0, h, _ => h
  | n + 1, h, bytes => sha256Blocks n (sha256Compress h (bytes.take 64)) (bytes.drop 64)

/-- Big-endian bytes of a 32-bit word. -/
def wordBytes (w : Nat) : Bytes :=
  [(w >>> 24) % 256, (w >>> 16) % 256, (w >>> 8) % 256, w % 256]

/-- `hashlib.sha256(msg).digest()`. -/
def sha256 (msg : Bytes) : Bytes :=
  let padded := sha256Pad msg
  ((sha256Blocks (padded.length / 64) sha256H0 padded).map wordBytes).flatten

/-! ## Standard base64 (`base64.standard_b64encode` / `standard_b64decode`) -/

/-- The standard base64 alphabet. -/
def b64chars : Str :=
  ("ABCDEFGHIJKLMNOPQRSTUVWXYZabcdefghijklmnopqrstuvwxyz0123456789+/").toList

/-- The alphabet character of a six-bit value. -/
def sixbit (n : Nat) : Char := b64chars.getD n 'A'

/-- `base64.standard_b64encode`, producing a character list. -/
def b64encode : Bytes → Str
  | [] => []
  | [a] => [sixbit (a / 4), sixbit ((a % 4) * 16), '=', '=']
  | [a, b] => [sixbit (a / 4), sixbit ((a % 4) * 16 + b / 16), sixbit ((b % 16) * 4), '=']
  | a :: b :: c :: rest =>
    sixbit (a / 4) :: sixbit ((a % 4) * 16 + b / 16) ::
    sixbit ((b % 16) * 4 + c / 64) :: sixbit (c % 64) :: b64encode rest

/-- The six-bit value of an alphabet character, if any. -/
def sixbitVal (c : Char) : Option Nat :=
  match b64chars.indexOf c with
  | i => if i < 64 then some i else none

/-- `binascii` discards characters outside the alphabet before decoding. -/
def b64keep (c : Char) : Bool := c == '=' || (sixbitVal c).isSome

/-- Decode four-character groups; `Except.error` is the raised
`binascii.Error` on a malformed trailing group (Python's "Invalid padding" /
length errors) or non-alphabet data characters. -/
def b64decodeGroups : Str → Except Str Bytes
  | a :: b :: c :: d :: rest =>
    match sixbitVal a, sixbitVal b with
    | some va, some vb =>
      if c == '=' then
        if d == '=' && rest.isEmpty then .ok [va * 4 + vb / 16]
        else .error ("binascii.Error: Invalid padding").toList
      else
        match sixbitVal c with
        | some vc =>
          if d == '=' then
            if rest.isEmpty then .ok [va * 4 + vb / 16, (vb % 16) * 16 + vc / 4]
            else .error ("binascii.Error: Invalid padding").toList
          else
            match sixbitVal d with
            | some vd =>
              match b64decodeGroups rest with
              | .ok bs =>
                .ok ((va * 4 + vb / 16) :: ((vb % 16) * 16 + vc / 4) :: ((vc % 4) * 64 + vd) :: bs)
              | .error e => .error e
            | none => .error ("binascii.Error: Invalid base64-encoded string").toList
        | none => .error ("binascii.Error: Invalid base64-encoded string").toList
    | _, _ => .error ("binascii.Error: Invalid base64-encoded string").toList
  | [] => .ok []
  | _ => .error ("binascii.Error: Invalid padding").toList

/-- `base64.standard_b64decode`, with Python's discard-then-decode behavior;
`Except.error` models the raised `binascii.Error`. -/
def b64decode (s : Str) : Except Str Bytes :=
  b64decodeGroups (s.filter b64keep)

/-! ## String splitting helpers (Python `str.split`, `str.split(sep, 1)`) -/

/-- Python `s.split(c)` for a one-character separator `c`. -/
def splitChar (c : Char) : Str → List Str
  | [] => [[]]
  | x :: xs =>
    match splitChar c xs with
    | [] => [[]]
    | y :: ys => if x = c then [] :: y :: ys else (x :: y) :: ys

/-- Does the list start with the given character? -/
def headIsB (b : Char) : Str → Bool
  | y :: _ => y == b
  | [] => false

/-- Python `s.split(ab, 1)` for the two-character separator `ab`, returning
the two pieces around the leftmost occurrence, or `none` when absent. -/
def splitOnce2 (a b : Char) : Str → Option (Str × Str)
  | [] => none
  | x :: xs =>
    if x == a && headIsB b xs then some ([], xs.tail)
    else
      match splitOnce2 a b xs with
      | some (p, q) => some (x :: p, q)
      | none => none

/-- Python `"\n".join`. -/
def joinNL : List Str → Str
  | [] => []
  | x :: xs =>
    match xs with
    | [] => x
    | _ => x ++ '\n' :: joinNL xs

/-- Python `" ".join`. -/
def joinSp : List Str → Str
  | [] => []
  | x :: xs =>
    match xs with
    | [] => x
    | _ => x ++ ' ' :: joinSp xs

/-- Python `",".join`. -/
def joinComma : List Str → Str
  | [] => []
  | x :: xs =>
    match xs with
    | [] => x
    | _ => x ++ ',' :: joinComma xs

/-- Python `s.replace(chr, "")`. -/
def removeChar (c : Char) (s : Str) : Str := s.filter (fun x => x ≠ c)

/-! ## Header dictionaries

Outbound, `signed_post` fills a plain Python `dict` (insertion ordered,
case-sensitive assignment).  Inbound, `validate` reads Django's
`request.headers`, which looks keys up case-insensitively; `hget` models
that lookup and `hset` models plain `dict` assignment. -/

/-- A header mapping, in insertion order. -/
abbrev HeadersMap := List (Str × Str)

/-- Case-insensitive header lookup (Django `HttpHeaders.__getitem__`). -/
def hget (hs : HeadersMap) (k : Str) : Option Str :=
  match hs with
  | [] => none
  | (k1, v) :: rest => if lowerStr k1 = lowerStr k then some v else hget rest k

/-- Python `dict` assignment `d[k] = v`: replace in place or append. -/
def hset (hs : HeadersMap) (k v : Str) : HeadersMap :=
  if hs.any (fun p => p.1 == k) then
    hs.map (fun p => if p.1 == k then (k, v) else p)
  else hs ++ [(k, v)]

/-- Python `dict` lookup where later duplicate insertions shadow earlier
ones (the dict comprehension in `parse_signature_header`). -/
def dlookupLast (d : List (Str × Str)) (k : Str) : Option Str :=
  match d with
  | [] => none
  | (k1, v) :: rest =>
    match dlookupLast rest k with
    | some r => some r
    | none => if k1 = k then some v else none

/-! ## `urllib.parse.urlparse`, restricted to `netloc` and `path`

`signed_post` and `validate` use only `parsed.netloc` and `parsed.path`.
The embedding finds the first `"://"`, takes the authority up to the first
`/`, `?` or `#`, and the path up to the first `?` or `#`; a URL with no
scheme separator has empty netloc and is all path, as in Python for the
inputs this code sees. -/

/-- Split at the first `"://"`, if any. -/
def splitScheme : Str → Option (Str × Str)
  | ':' :: '/' :: '/' :: rest => some ([], rest)
  | c :: rest =>
    match splitScheme rest with
    | some (a, b) => some (c :: a, b)
    | none => none
  | [] => none

/-- `urlparse(url).netloc`. -/
def urlNetloc (url : Str) : Str :=
  match splitScheme url with
  | some (_, rest) => rest.takeWhile (fun c => c ≠ '/' ∧ c ≠ '?' ∧ c ≠ '#')
  | none => []

/-- `urlparse(url).path`. -/
def urlPath (url : Str) : Str :=
  match splitScheme url with
  | some (_, rest) =>
    (rest.dropWhile (fun c => c ≠ '/' ∧ c ≠ '?' ∧ c ≠ '#')).takeWhile
      (fun c => c ≠ '?' ∧ c ≠ '#')
  | none => url.takeWhile (fun c => c ≠ '?' ∧ c ≠ '#')

/-! ## Signature codec (`HttpSignature`, `content_digest_sha256`) -/

/-- The ordered `(header-name, value)` fields of an `HttpSignature`. -/
abbrev SigFields := List (Str × Str)

/-- One `"{name}: {value}"` line of the signing string. -/
def fieldLine (p : Str × Str) : Str := p.1 ++ ':' :: ' ' :: p.2

/-- `HttpSignature.build_message`: the newline-joined signing string. -/
def build_message (fields : SigFields) : Str := joinNL (fields.map fieldLine)

/-- `sign_message(private_key, message)` up to the external RSA primitive:
base64 of the signature bytes of the UTF-8 message.  `signFn` stands for
`load_pem_private_key(private_key).sign(·, PKCS1v15, SHA256)`. -/
def sign_message (signFn : Bytes → Bytes) (message : Str) : Str :=
  b64encode (signFn (utf8Encode message))

/-- `HttpSignature.build_signature`: the `Signature` header value. -/
def build_signature_header (key_id : Str) (signFn : Bytes → Bytes) (fields : SigFields) : Str :=
  let signature_string := sign_message signFn (build_message fields)
  let headers := joinSp (fields.map Prod.fst)
  joinComma
    [("keyId=\"").toList ++ key_id ++ [ '\"' ],
     ("algorithm=\"rsa-sha256\"").toList,
     ("headers=\"").toList ++ headers ++ [ '\"' ],
     ("signature=\"").toList ++ signature_string ++ [ '\"' ]]

/-- `content_digest_sha256` on bytes that are present. -/
def content_digest_sha256 (content : Bytes) : Str :=
  ("SHA-256=").toList ++ b64encode (sha256 content)

/-- `content_digest_sha256` as called with an optional body: Python raises
`TypeError` from `hashlib.sha256(None)` when the body is `None` (there is no
`None` branch in the source; `str` input is the `Bytes` of its UTF-8). -/
def content_digest_py (content : Option Bytes) : Except Str Str :=
  match content with
  | none => .error ("TypeError: object supporting the buffer API required").toList
  | some b => .ok (content_digest_sha256 b)

/-! ## `signed_post` (headers built; the `requests.post` call is external) -/

/-- The ordered field list `signed_post` signs: `(request-target)`, `host`,
`date`, `digest`, `content-type` (built via `build_signature` plus the three
`with_field` calls). -/
def signed_fields (url date digest : Str) : SigFields :=
  [(("(request-target)").toList, ("post ").toList ++ urlPath url),
   (("host").toList, urlNetloc url),
   (("date").toList, date),
   (("digest").toList, digest),
   (("content-type").toList, ("application/activity+json").toList)]

/-- The `Signature` header `signed_post` builds for a given URL, signer, key
id, body and `date` header (the `get_gmt_now()` timestamp is a parameter). -/
def signed_post_signature_header (url : Str) (signFn : Bytes → Bytes)
    (public_key_url : Str) (body : Bytes) (date : Str) : Str :=
  build_signature_header public_key_url signFn
    (signed_fields url date (content_digest_sha256 body))

/-- The complete header dictionary `signed_post` attaches to the outgoing
request when a body is present. -/
def signed_post_headers (url : Str) (signFn : Bytes → Bytes)
    (public_key_url : Str) (headers0 : HeadersMap) (body : Bytes) (date : Str) : HeadersMap :=
  let digest := content_digest_sha256 body
  hset (hset (hset (hset (hset (hset (hset headers0
    ("accept").toList (("application/activity+json").toList))
    ("digest").toList digest)
    ("date").toList date)
    ("host").toList (urlNetloc url))
    ("content-type").toList (("application/activity+json").toList))
    ("signature").toList (signed_post_signature_header url signFn public_key_url body date))
    ("user-agent").toList (("shimmy's django_activitypub service - unlike mozilla").toList)

/-- `signed_post` up to the outgoing network call: the headers it would send,
or the exception it raises.  With `body=None` the digest computation raises
`TypeError` before any header is built. -/
def signed_post (url : Str) (signFn : Bytes → Bytes) (public_key_url : Str)
    (headers0 : HeadersMap) (body : Option Bytes) (date : Str) : Except Str HeadersMap :=
  match content_digest_py body with
  | .error e => .error e
  | .ok _ =>
    match body with
    | none => .error ("unreachable").toList
    | some b => .ok (signed_post_headers url signFn public_key_url headers0 b date)

/-! ## `parse_signature_header` -/

/-- Parse the pieces of one `key="value"` parameter list; a part without the
`="` separator makes the dict comprehension raise `IndexError`. -/
def parsePairs : List Str → Except Str (List (Str × Str))
  | [] => .ok []
  | part :: rest =>
    match splitOnce2 '=' '\"' part with
    | none => .error ("IndexError: list index out of range").toList
    | some (k, v) =>
      match parsePairs rest with
      | .ok ps => .ok ((k, removeChar '\"' v) :: ps)
      | .error e => .error e

/-- `parse_signature_header`: split on commas, split each part once on `="`,
strip double quotes from the values. -/
def parse_signature_header (header : Str) : Except Str (List (Str × Str)) :=
  parsePairs (splitChar ',' header)

/-! ## `ValidateResult` and `SignatureChecker` -/

/-- The discriminated result of `SignatureChecker.validate`. -/
structure ValidateResult where
  success : Bool
  identity : Option Str
  error : Option Str
deriving DecidableEq, Repr

/-- `ValidateResult.success(identity)` (the classmethod constructor). -/
def ValidateResult.mkSuccess (identity : Option Str) : ValidateResult :=
  ⟨true, identity, none⟩

/-- `ValidateResult.fail(error)` (the classmethod constructor). -/
def ValidateResult.mkFail (error : Str) : ValidateResult :=
  ⟨false, none, some error⟩

/-- The kind of key `load_pem_public_key` produced. -/
inductive KeyKind
  | rsa
  | ed25519
  | other
deriving DecidableEq, Repr

/-- A constructed `SignatureChecker`: the actor's public-key document fields
(`owner`, `id`) and the loaded public key, the latter as its kind plus the
external library's verification predicate on (signature bytes, message
bytes); `verify sig msg = true` stands for `public_key.verify` not raising
`InvalidSignature`. -/
structure Checker where
  controller : Option Str
  key_id : Option Str
  kind : KeyKind
  verify : Bytes → Bytes → Bool

/-- `"Digest mismatch: {digest} != {req_digest}"`. -/
def msgDigestMismatch (digest req_digest : Str) : Str :=
  ("Digest mismatch: ").toList ++ digest ++ (" != ").toList ++ req_digest

/-- `req_digest[:4].upper() + req_digest[4:]`: upper-case only the first four
characters of the inbound digest header. -/
def upper4 (s : Str) : Str := upperStr (s.take 4) ++ s.drop 4

/-- The `for field in fields` builder loop of `validate`: `(request-target)`
is rebuilt from the live method and URL, every other declared field reads the
live request header, raising `KeyError` when it is absent. -/
def validateBuildFields (method url : Str) (headers : HeadersMap) :
    List Str → Except Str SigFields
  | [] => .ok []
  | f :: rest =>
    if f = ("(request-target)").toList then
      match validateBuildFields method url headers rest with
      | .ok ps => .ok ((f, lowerStr method ++ ' ' :: urlPath url) :: ps)
      | .error e => .error e
    else
      match hget headers f with
      | none => .error (("KeyError: ").toList ++ f)
      | some v =>
        match validateBuildFields method url headers rest with
        | .ok ps => .ok ((f, v) :: ps)
        | .error e => .error e

/-- The verifier tail of `SignatureChecker.validate`, from
`parse_signature_header` onwards; `digest` is the recomputed digest string
(empty for non-POST). `Except.error` models an uncaught Python exception. -/
def validateTail (c : Checker) (method url : Str) (headers : HeadersMap)
    (digest : Str) (sigVal : Str) : Except Str ValidateResult :=
  match parse_signature_header sigVal with
  | .error e => .error e
  | .ok parsed =>
    match dlookupLast parsed ("headers").toList with
    | none => .error ("KeyError: headers").toList
    | some declared =>
      let fields := splitChar ' ' declared
      if ¬ (("(request-target)").toList ∈ fields ∧ ("date").toList ∈ fields) then
        .ok (ValidateResult.mkFail (("Missing required signature fields").toList))
      else if digest ≠ [] ∧ ("digest").toList ∉ fields then
        .ok (ValidateResult.mkFail (("Missing digest field").toList))
      else
        match validateBuildFields method url headers fields with
        | .error e => .error e
        | .ok builderFields =>
          match dlookupLast parsed ("keyId").toList with
          | none => .error ("KeyError: keyId").toList
          | some kid =>
            if c.key_id ≠ some kid then
              .ok (ValidateResult.mkFail
                (("Key ID mismatch: expected != parsed ").toList ++ kid))
            else
              match dlookupLast parsed ("signature").toList with
              | none => .error ("KeyError: signature").toList
              | some sigB64 =>
                match b64decode sigB64 with
                | .error e => .error e
                | .ok sigBytes =>
                  let message := utf8Encode (build_message builderFields)
                  match c.kind with
                  | .rsa =>
                    if c.verify sigBytes message then .ok (ValidateResult.mkSuccess c.controller)
                    else .ok (ValidateResult.mkFail (("Invalid signature").toList))
                  | .ed25519 =>
                    if c.verify sigBytes message then .ok (ValidateResult.mkSuccess c.controller)
                    else .ok (ValidateResult.mkFail (("Invalid signature").toList))
                  | .other =>
                    .ok (ValidateResult.mkFail (("Unsupported public key type").toList))

/-- `SignatureChecker.validate`.  `Except.ok` is a returned
`ValidateResult`; `Except.error` is an uncaught Python exception escaping
the method. -/
def validate (c : Checker) (method url : Str) (headers : HeadersMap)
    (body : Bytes) : Except Str ValidateResult :=
  match hget headers ("signature").toList with
  | none => .ok (ValidateResult.mkFail (("Missing signature header").toList))
  | some sigVal =>
    if lowerStr method = ("post").toList then
      match hget headers ("digest").toList with
      | none => .error ("KeyError: digest").toList
      | some reqDigest0 =>
        let digest := content_digest_sha256 body
        let reqDigest := upper4 reqDigest0
        if digest = reqDigest then validateTail c method url headers digest sigVal
        else .ok (ValidateResult.mkFail (msgDigestMismatch digest reqDigest))
    else validateTail c method url headers [] sigVal

/-! ## Follower edges (`models.Follower`, inbox `Follow` / `Undo(Follow)`)

A `Follower` row is the pair (remote actor URL, local actor id); the database
enforces `UniqueConstraint(fields=['remote_actor', 'following'])`. -/

/-- The Follower table, in insertion order. -/
abbrev FollowerTable := List (Str × Str)

/-- The table invariant the unique constraint enforces: at most one row per
(remote, local) pair. -/
def FollowerInv (t : FollowerTable) : Prop := ∀ p : Str × Str, t.count p ≤ 1

/-- `Follower.objects.get_or_create(remote_actor=.., following=..)` as run by
the inbox `Follow` branch: create the row only when absent.  (Under the
unique constraint at most one matching row exists, so `get_or_create` is
membership plus conditional insert.) -/
def followerGetOrCreate (t : FollowerTable) (remote localA : Str) : FollowerTable :=
  if (remote, localA) ∈ t then t else t ++ [(remote, localA)]

/-- `local_actor.followers.remove(remote_actor)` as run by the inbox
`Undo(Follow)` branch: delete the matching row(s); removing an absent member
is a silent no-op in Django's many-to-many `remove`. -/
def followersRemove (t : FollowerTable) (remote localA : Str) : FollowerTable :=
  t.filter (fun e => e ≠ (remote, localA))

/-- The `Undo(Follow)` branch of the `inbox` view, after signature
validation and target-actor lookup.  Inputs: the known `RemoteActor` URLs,
the Follower table, the target local actor's id, the id that
`LocalActor.objects.get_by_url(to_undo['object'])` resolved to, and
`to_undo['actor']`.  Output: the HTTP status and the new Follower table
(`200` carries the `{'ok': true}` acknowledgement; `400`/`404` are the
rejections). -/
def inboxUndoFollow (remotes : List Str) (t : FollowerTable)
    (actorId objectActorId undoActorUrl : Str) : Nat × FollowerTable :=
  if objectActorId ≠ actorId then (400, t)
  else if undoActorUrl ∉ remotes then (404, t)
  else (200, followersRemove t undoActorUrl actorId)

/-! ## The Note store (`models.Note`, `NoteManager`) -/

/-- A stored `Note` row: the two nullable author keys, body, canonical
content URL, the `published` timestamp string and the optional parent
reference (by content URL).  Timestamps that the code only copies around are
kept as opaque strings. -/
structure NoteRec where
  localActor : Option Str
  remoteActor : Option Str
  content : Str
  contentUrl : Str
  published : Str
  parent : Option Str
deriving DecidableEq, Repr

/-- The Note table, in insertion order. -/
abbrev NoteTable := List NoteRec

/-- `self.get(content_url=...)`'s candidate set. -/
def notesGet (notes : NoteTable) (u : Str) : NoteTable :=
  notes.filter (fun n => n.contentUrl = u)

/-- Which fan-out a store operation triggered. -/
inductive Fanout
  | create
  | update
deriving DecidableEq, Repr

/-- The fresh row `super().create(local_actor=.., content=.., content_url=..)`
builds in the `DoesNotExist` branch of `upsert`. -/
def freshLocalNote (localActor content u : Str) : NoteRec :=
  { localActor := some localActor, remoteActor := none, content := content,
    contentUrl := u, published := [], parent := none }

/-- `NoteManager.upsert(base_uri, local_actor, content, content_url)`: update
the existing row (then `send_update_note_to_followers`) or create a fresh
locally-authored row (then `send_create_note_to_followers`).  The fan-out
itself is network delivery and is reported as the triggered `Fanout`; with
two or more matching rows Django's `get` raises `MultipleObjectsReturned`. -/
def noteUpsert (notes : NoteTable) (localActor content u : Str) :
    Except Str (NoteTable × Fanout) :=
  match notesGet notes u with
  | [] => .ok (notes ++ [freshLocalNote localActor content u], .create)
  | [_] =>
    .ok (notes.map (fun n => if n.contentUrl = u then { n with content := content } else n),
         .update)
  | _ => .error ("MultipleObjectsReturned").toList

/-- A fetched remote object document (`get_object(url)`'s JSON), with the
fields `upsert_remote` reads. -/
structure RemoteDoc where
  docId : Str
  attributedTo : Str
  published : Str
  content : Str
  inReplyTo : Option Str
deriving Repr

/-- Python `str.startswith`. -/
def strStartsWith : Str → Str → Bool
  | _, [] => true
  | [], _ :: _ => false
  | c :: cs, p :: ps => c == p && strStartsWith cs ps

/-- `NoteManager.upsert_remote(base_uri, obj)`.  `fetchFn` stands for
`get_object` (a successful remote fetch); `objId` is `obj['id']`.  The row
found by `full_obj['id']` — or a fresh `Note()` — gets `remote_actor` (the
resolved actor, identified here by its URL), `published`, `content`,
`content_url = obj['id']`, and, when `inReplyTo` is present, a parent: a
local parent is looked up (absence raises `DoesNotExist`), a remote parent
is recursively upserted first (possibly growing the table).  The recursion
fuel models the absent cycle guard: Python recurses until the remote chain
ends or the stack overflows.  Returns the new table and the saved row. -/
def upsertRemote (fetchFn : Str → RemoteDoc) (base : Str) :
    Nat → NoteTable → Str → Except Str (NoteTable × NoteRec)
  | 0, _, _ => .error ("RecursionError: maximum recursion depth exceeded").toList
  | fuel + 1, notes, objId =>
    let full := fetchFn objId
    match (match notesGet notes full.docId with
           | [] => Except.ok none
           | [n] => Except.ok (some n)
           | _ => Except.error (("MultipleObjectsReturned").toList)) with
    | .error e => .error e
    | .ok found =>
      match (match full.inReplyTo with
             | none => Except.ok (notes, none)
             | some replyUrl =>
               if strStartsWith replyUrl base then
                 match notesGet notes replyUrl with
                 | [p] => Except.ok (notes, some p.contentUrl)
                 | [] => Except.error (("Note.DoesNotExist").toList)
                 | _ => Except.error (("MultipleObjectsReturned").toList)
               else
                 match upsertRemote fetchFn base fuel notes replyUrl with
                 | .ok (notes1, parentRow) => Except.ok (notes1, some parentRow.contentUrl)
                 | .error e => Except.error e) with
      | .error e => .error e
      | .ok (notes1, parentOpt) =>
        match found with
        | none =>
          let row : NoteRec :=
            { localActor := none, remoteActor := some full.attributedTo,
              content := full.content, contentUrl := objId,
              published := full.published, parent := parentOpt }
          .ok (notes1 ++ [row], row)
        | some n =>
          let row : NoteRec :=
            { n with remoteActor := some full.attributedTo,
                     content := full.content, contentUrl := objId,
                     published := full.published,
                     parent := match parentOpt with | some p => some p | none => n.parent }
          .ok (notes1.map (fun m => if m.contentUrl = full.docId then row else m), row)

/-- The author-exclusivity property of §3 of the design: exactly one of
`local_actor` / `remote_actor` is set on a row. -/
def rowExclusive (n : NoteRec) : Bool :=
  (n.localActor.isSome && n.remoteActor.isNone) ||
  (n.localActor.isNone && n.remoteActor.isSome)

/-! ## WebFinger resolution (`webfinger.finger`,
`RemoteActorManager.get_or_create_with_username_domain`) -/

/-- One entry of a WebFinger `links` array. -/
structure WFLink where
  rel : Option Str
  linkType : Option Str
  href : Str
deriving Repr

/-- A fetched actor profile, reduced to the field the resolver reads
(`data['profile'].get('id')`). -/
structure RemoteProfile where
  idUrl : Option Str
deriving Repr

/-- A value of the dictionary `finger` returns: the raw webfinger document,
a fetched profile, or Python `None`. -/
inductive FingerVal
  | webfingerDoc
  | profileDoc (p : RemoteProfile)
  | pyNone
deriving Repr

/-- Assoc-list lookup modelling `key in dict` / `dict[key]` on `finger`'s
result. -/
def flookup (d : List (Str × FingerVal)) (k : Str) : Option FingerVal :=
  match d with
  | [] => none
  | (k1, v) :: rest => if k1 = k then some v else flookup rest k

/-- `finger(username, domain)` after a successful webfinger fetch: select the
first link with `rel == 'self'` and `type == 'application/activity+json'`,
fetch its profile when present, and return the two-key dictionary
`{'webfinger': ..., 'profile': ...}` — the `'profile'` key is always present,
possibly holding `None`. -/
def finger (fetchProfile : Str → RemoteProfile) (links : List WFLink) :
    List (Str × FingerVal) :=
  let profileLink := links.find? (fun l =>
    decide (l.rel = some (("self").toList)) &&
    decide (l.linkType = some (("application/activity+json").toList)))
  let profileVal :=
    match profileLink with
    | some l => FingerVal.profileDoc (fetchProfile l.href)
    | none => FingerVal.pyNone
  [(("webfinger").toList, FingerVal.webfingerDoc), (("profile").toList, profileVal)]

/-- A cached `RemoteActor` row, reduced to its lookup keys. -/
structure RemoteActorRec where
  username : Str
  domain : Str
  url : Str
deriving DecidableEq, Repr

/-- `RemoteActorManager.get_or_create_with_username_domain` for a handle with
a successfully fetched webfinger document `links` (transport failures raise
`WebfingerException` upstream of the branch modelled here).  Returns the
resolved actor URL, `none` for the intended "no profile" result, or the
exception text.  The source checks `'profile' not in data` — never true, as
`finger` always includes the key — and then calls `.get('id')` on the value,
which raises `AttributeError` when that value is `None`. -/
def getOrCreateWithUsernameDomain (cache : List RemoteActorRec)
    (fetchProfile : Str → RemoteProfile) (links : List WFLink)
    (username domain : Str) : Except Str (Option Str) :=
  match cache.find? (fun r => decide (r.username = username) && decide (r.domain = domain)) with
  | some r => .ok (some r.url)
  | none =>
    let data := finger fetchProfile links
    match flookup data ("profile").toList with
    | none => .ok none
    | some (FingerVal.profileDoc p) =>
      match p.idUrl with
      | some url => .ok (some url)
      | none => .ok (some [])
    | some FingerVal.pyNone =>
      .error ("AttributeError: 'NoneType' object has no attribute 'get'").toList
    | some FingerVal.webfingerDoc =>
      .error ("AttributeError: unexpected value").toList

/-! ## Helper lemmas about the string and base64 primitives -/

/-- `splitChar` never returns the empty list. -/
theorem splitChar_ne_nil (c : Char) (s : Str) : splitChar c s ≠ [] := by
  induction s with
  | nil => simp [splitChar]
  | cons x xs ih =>
    simp only [splitChar]
    cases h : splitChar c xs with
    | nil => simp
    | cons y ys =>
      by_cases hx : x = c <;> simp [hx]

/-- Splitting a separator-free string returns it whole. -/
theorem splitChar_not_mem (c : Char) (s : Str) (h : c ∉ s) : splitChar c s = [s] := by
  induction s with
  | nil => rfl
  | cons x xs ih =>
    have hx : x ≠ c := fun e => h (e ▸ List.mem_cons_self x xs)
    have hxs : c ∉ xs := fun m => h (List.mem_cons_of_mem x m)
    simp only [splitChar]
    rw [ih hxs]
    simp [hx]

/-- Splitting peels one separator-free prefix at a time. -/
theorem splitChar_append (c : Char) (s1 s2 : Str) (h : c ∉ s1) :
    splitChar c (s1 ++ c :: s2) = s1 :: splitChar c s2 := by
  induction s1 with
  | nil =>
    simp only [List.nil_append, splitChar]
    cases hs : splitChar c s2 with
    | nil => exact absurd hs (splitChar_ne_nil c s2)
    | cons y ys => simp [hs]
  | cons x xs ih =>
    have hx : x ≠ c := fun e => h (e ▸ List.mem_cons_self x xs)
    have hxs : c ∉ xs := fun m => h (List.mem_cons_of_mem x m)
    simp only [List.cons_append, splitChar, List.append_eq]
    rw [ih hxs]
    simp [hx]

/-- `splitOnce2` finds the separator right after a separator-free key. -/
theorem splitOnce2_key (a b : Char) (key rest : Str) (h : a ∉ key) :
    splitOnce2 a b (key ++ a :: b :: rest) = some (key, rest) := by
  induction key with
  | nil => simp [splitOnce2, headIsB]
  | cons x xs ih =>
    have hx : x ≠ a := fun e => h (e ▸ List.mem_cons_self x xs)
    have hxs : a ∉ xs := fun m => h (List.mem_cons_of_mem x m)
    simp only [List.cons_append, splitOnce2, List.append_eq]
    rw [ih hxs]
    simp [hx]

/-- Removing a character that does not occur is the identity. -/
theorem removeChar_not_mem (c : Char) (s : Str) (h : c ∉ s) : removeChar c s = s := by
  induction s with
  | nil => rfl
  | cons x xs ih =>
    have hx : x ≠ c := fun e => h (e ▸ List.mem_cons_self x xs)
    have hxs : c ∉ xs := fun m => h (List.mem_cons_of_mem x m)
    simp [removeChar] at ih ⊢
    exact ⟨hx, ih hxs⟩

/-- Stripping the closing quote: `removeChar` of a quote-free value followed
by one quote returns the value. -/
theorem removeChar_quote (s : Str) (h : '\"' ∉ s) :
    removeChar '\"' (s ++ ['\"']) = s := by
  have h1 := removeChar_not_mem '\"' s h
  simp only [removeChar] at h1 ⊢
  rw [List.filter_append, h1]
  simp

/-- Every six-bit index maps into the alphabet (the `getD` default `'A'` is
itself an alphabet character). -/
theorem sixbit_mem (n : Nat) : sixbit n ∈ b64chars := by
  by_cases hn : n < b64chars.length
  · unfold sixbit
    rw [List.getD_eq_getElem _ _ hn]
    exact List.getElem_mem hn
  · unfold sixbit
    rw [List.getD_eq_default]
    · decide
    · omega

/-- Every character the base64 encoder emits is an alphabet character or the
padding `'='`. -/
theorem b64encode_chars (bs : Bytes) :
    ∀ ch ∈ b64encode bs, ch ∈ b64chars ∨ ch = '=' := by
  induction bs using b64encode.induct with
  | case1 => intro ch hch; simp [b64encode] at hch
  | case2 a =>
    intro ch hch
    simp only [b64encode, List.mem_cons, List.not_mem_nil, or_false] at hch
    rcases hch with h | h | h | h <;>
      first
        | (rw [h]; exact Or.inl (sixbit_mem _))
        | (exact Or.inr h)
  | case3 a b =>
    intro ch hch
    simp only [b64encode, List.mem_cons, List.not_mem_nil, or_false] at hch
    rcases hch with h | h | h | h <;>
      first
        | (rw [h]; exact Or.inl (sixbit_mem _))
        | (exact Or.inr h)
  | case4 a b c rest ih =>
    intro ch hch
    simp only [b64encode, List.mem_cons] at hch
    rcases hch with h | h | h | h | h
    · rw [h]; exact Or.inl (sixbit_mem _)
    · rw [h]; exact Or.inl (sixbit_mem _)
    · rw [h]; exact Or.inl (sixbit_mem _)
    · rw [h]; exact Or.inl (sixbit_mem _)
    · exact ih ch h

/-- The encoder never emits a comma. -/
theorem b64encode_no_comma (bs : Bytes) : ',' ∉ b64encode bs := by
  intro hm
  rcases b64encode_chars bs ',' hm with h | h
  · revert h; decide
  · exact absurd h (by decide)

/-- The encoder never emits a double quote. -/
theorem b64encode_no_quote (bs : Bytes) : '\"' ∉ b64encode bs := by
  intro hm
  rcases b64encode_chars bs '\"' hm with h | h
  · revert h; decide
  · exact absurd h (by decide)

/-- The decoder's discard step keeps every encoder-produced character. -/
theorem b64filter_encode (bs : Bytes) :
    (b64encode bs).filter b64keep = b64encode bs := by
  rw [List.filter_eq_self]
  intro ch hch
  rcases b64encode_chars bs ch hch with h | h
  · have : (sixbitVal ch).isSome := by
      revert h
      have : ∀ c ∈ b64chars, (sixbitVal c).isSome := by decide
      intro h; exact this ch h
    simp [b64keep, this]
  · simp [b64keep, h]

/-- Decoding inverts the alphabet map on six-bit values. -/
theorem sixbitVal_sixbit : ∀ n < 64, sixbitVal (sixbit n) = some n := by decide

/-- The trailing group characters are never `'='` for in-range data. -/
theorem sixbit_ne_pad : ∀ n < 64, sixbit n ≠ '=' := by decide

/-- Standard base64 decode inverts encode on byte lists. -/
theorem b64decode_encode (bs : Bytes) (h : ∀ x ∈ bs, x < 256) :
    b64decode (b64encode bs) = .ok bs := by
  unfold b64decode
  rw [b64filter_encode]
  induction bs using b64encode.induct with
  | case1 => rfl
  | case2 a =>
    have ha : a < 256 := h a (by simp)
    have h1 : a / 4 < 64 := by omega
    have h2 : a % 4 * 16 < 64 := by omega
    simp only [b64encode, b64decodeGroups, sixbitVal_sixbit _ h1, sixbitVal_sixbit _ h2]
    simp
    all_goals omega
  | case3 a b =>
    have ha : a < 256 := h a (by simp)
    have hb : b < 256 := h b (by simp)
    have h1 : a / 4 < 64 := by omega
    have h2 : a % 4 * 16 + b / 16 < 64 := by omega
    have h3 : b % 16 * 4 < 64 := by omega
    have hp3 : (sixbit (b % 16 * 4) == '=') = false :=
      beq_eq_false_iff_ne.mpr (sixbit_ne_pad _ h3)
    simp only [b64encode, b64decodeGroups, sixbitVal_sixbit _ h1, sixbitVal_sixbit _ h2,
      sixbitVal_sixbit _ h3, hp3]
    simp
    constructor
    all_goals omega
  | case4 a b c rest ih =>
    have ha : a < 256 := h a (by simp)
    have hb : b < 256 := h b (by simp)
    have hc : c < 256 := h c (by simp)
    have hrest : ∀ x ∈ rest, x < 256 := fun x hx => h x (by simp [hx])
    have h1 : a / 4 < 64 := by omega
    have h2 : a % 4 * 16 + b / 16 < 64 := by omega
    have h3 : b % 16 * 4 + c / 64 < 64 := by omega
    have h4 : c % 64 < 64 := by omega
    have hp3 : (sixbit (b % 16 * 4 + c / 64) == '=') = false :=
      beq_eq_false_iff_ne.mpr (sixbit_ne_pad _ h3)
    have hp4 : (sixbit (c % 64) == '=') = false :=
      beq_eq_false_iff_ne.mpr (sixbit_ne_pad _ h4)
    have e1 : a / 4 * 4 + (a % 4 * 16 + b / 16) / 16 = a := by omega
    have e2 : (a % 4 * 16 + b / 16) % 16 * 16 + (b % 16 * 4 + c / 64) / 4 = b := by omega
    have e3 : (b % 16 * 4 + c / 64) % 4 * 64 + c % 64 = c := by omega
    simp only [b64encode, b64decodeGroups, sixbitVal_sixbit _ h1, sixbitVal_sixbit _ h2,
      sixbitVal_sixbit _ h3, sixbitVal_sixbit _ h4, hp3, hp4, ih hrest, e1, e2, e3]
    simp

/-- UTF-8 encoding produces bytes. -/
theorem utf8Char_lt (n : Nat) (hn : n < 1114112) : ∀ x ∈ utf8Char n, x < 256 := by
  intro x hx
  unfold utf8Char at hx
  by_cases h1 : n < 128
  · simp [h1] at hx; omega
  · by_cases h2 : n < 2048
    · simp [h1, h2] at hx
      rcases hx with h | h <;> omega
    · by_cases h3 : n < 65536
      · simp [h1, h2, h3] at hx
        rcases hx with h | h | h <;> omega
      · simp [h1, h2, h3] at hx
        rcases hx with h | h | h | h <;> omega

/-- Every code point is below `0x110000`. -/
theorem char_toNat_lt (c : Char) : c.toNat < 1114112 := by
  have hv := c.valid
  show c.val.toNat < 1114112
  rcases hv with h | h
  · omega
  · exact h.2

/-- UTF-8 encoded strings are byte lists. -/
theorem utf8Encode_lt (s : Str) : ∀ x ∈ utf8Encode s, x < 256 := by
  intro x hx
  unfold utf8Encode at hx
  rcases List.mem_flatten.mp hx with ⟨l, hl, hxl⟩
  rcases List.mem_map.mp hl with ⟨ch, _, rfl⟩
  exact utf8Char_lt ch.toNat (char_toNat_lt ch) x hxl

/-! ## Parsing the signature header the signer built -/

/-- `build_signature_header` in its comma-joined shape. -/
theorem build_signature_header_shape (kid : Str) (sf : Bytes → Bytes) (fields : SigFields) :
    build_signature_header kid sf fields =
      (("keyId=\"").toList ++ (kid ++ ['\"'])) ++ ',' ::
      ((("algorithm=\"rsa-sha256\"").toList) ++ ',' ::
      ((("headers=\"").toList ++ (joinSp (fields.map Prod.fst) ++ ['\"'])) ++ ',' ::
      (("signature=\"").toList ++ (sign_message sf (build_message fields) ++ ['\"'])))) := rfl

/-- Splitting the key of a `keyId="v"` part. -/
theorem splitOnce2_keyId (v : Str) :
    splitOnce2 '=' '\"' (("keyId=\"").toList ++ v) = some (("keyId").toList, v) :=
  splitOnce2_key '=' '\"' (("keyId").toList) v (by decide)

/-- Splitting the key of a `headers="v"` part. -/
theorem splitOnce2_headers (v : Str) :
    splitOnce2 '=' '\"' (("headers=\"").toList ++ v) = some (("headers").toList, v) :=
  splitOnce2_key '=' '\"' (("headers").toList) v (by decide)

/-- Splitting the key of a `signature="v"` part. -/
theorem splitOnce2_signature (v : Str) :
    splitOnce2 '=' '\"' (("signature=\"").toList ++ v) = some (("signature").toList, v) :=
  splitOnce2_key '=' '\"' (("signature").toList) v (by decide)

/-- Parsing a signature header of the built shape recovers the four
parameters, as long as the key id and signature text are comma- and
quote-free (the base64 signature always is; the key id URL is in practice). -/
theorem parse_signature_header_built (kid names sig : Str)
    (hkc : ',' ∉ kid) (hkq : '\"' ∉ kid)
    (hnc : ',' ∉ names) (hnq : '\"' ∉ names)
    (hsc : ',' ∉ sig) (hsq : '\"' ∉ sig) :
    parse_signature_header
      ((("keyId=\"").toList ++ (kid ++ ['\"'])) ++ ',' ::
       ((("algorithm=\"rsa-sha256\"").toList) ++ ',' ::
       ((("headers=\"").toList ++ (names ++ ['\"'])) ++ ',' ::
       (("signature=\"").toList ++ (sig ++ ['\"']))))) =
    .ok [(("keyId").toList, kid),
         (("algorithm").toList, ("rsa-sha256").toList),
         (("headers").toList, names),
         (("signature").toList, sig)] := by
  have m1 : ',' ∉ ("keyId=\"").toList ++ (kid ++ ['\"']) := by
    intro hm
    rcases List.mem_append.mp hm with h | h
    · revert h; decide
    · rcases List.mem_append.mp h with h2 | h2
      · exact hkc h2
      · revert h2; decide
  have m2 : ',' ∉ ("algorithm=\"rsa-sha256\"").toList := by decide
  have m3 : ',' ∉ ("headers=\"").toList ++ (names ++ ['\"']) := by
    intro hm
    rcases List.mem_append.mp hm with h | h
    · revert h; decide
    · rcases List.mem_append.mp h with h2 | h2
      · exact hnc h2
      · revert h2; decide
  have m4 : ',' ∉ ("signature=\"").toList ++ (sig ++ ['\"']) := by
    intro hm
    rcases List.mem_append.mp hm with h | h
    · revert h; decide
    · rcases List.mem_append.mp h with h2 | h2
      · exact hsc h2
      · revert h2; decide
  unfold parse_signature_header
  rw [splitChar_append ',' _ _ m1, splitChar_append ',' _ _ m2,
      splitChar_append ',' _ _ m3, splitChar_not_mem ',' _ m4]
  simp only [parsePairs, splitOnce2_keyId, splitOnce2_headers, splitOnce2_signature]
  rw [show splitOnce2 '=' '\"' (("algorithm=\"rsa-sha256\"").toList) =
        some (("algorithm").toList, ("rsa-sha256\"").toList) from by decide]
  rw [removeChar_quote kid hkq, removeChar_quote names hnq, removeChar_quote sig hsq]
  rfl

/-- The verifier tail accepts exactly the header set the signer built: the
reconstructed canonical string matches the signed one field for field. -/
theorem validateTail_roundtrip
    (signFn : Bytes → Bytes) (verifyFn : Bytes → Bytes → Bool)
    (controller : Option Str) (pubUrl url method date : Str) (body : Bytes)
    (hpair : ∀ m, verifyFn (signFn m) m = true)
    (hbytes : ∀ m, (∀ x ∈ m, x < 256) → ∀ x ∈ signFn m, x < 256)
    (hmethod : lowerStr method = ("post").toList)
    (hkc : ',' ∉ pubUrl) (hkq : '\"' ∉ pubUrl) :
    validateTail ⟨controller, some pubUrl, .rsa, verifyFn⟩ method url
        (signed_post_headers url signFn pubUrl [] body date)
        (content_digest_sha256 body)
        (signed_post_signature_header url signFn pubUrl body date)
      = .ok (ValidateResult.mkSuccess controller) := by
  unfold validateTail
  unfold signed_post_signature_header
  rw [build_signature_header_shape]
  rw [show joinSp ((signed_fields url date (content_digest_sha256 body)).map Prod.fst)
        = ("(request-target) host date digest content-type").toList from rfl]
  rw [parse_signature_header_built pubUrl
        (("(request-target) host date digest content-type").toList)
        (sign_message signFn (build_message (signed_fields url date (content_digest_sha256 body))))
        hkc hkq (by decide) (by decide) (b64encode_no_comma _) (b64encode_no_quote _)]
  have hm2 : List.map lowerChar method = ("post").toList := hmethod
  have hbb : ("post").toList ++ ' ' :: urlPath url = ("post ").toList ++ urlPath url := rfl
  have hb64 := b64decode_encode
    (signFn (utf8Encode (build_message (signed_fields url date (content_digest_sha256 body)))))
    (hbytes _ (utf8Encode_lt _))
  have hver := hpair (utf8Encode (build_message (signed_fields url date (content_digest_sha256 body))))
  simp [signed_fields, sign_message] at hb64 hver
  simp [dlookupLast, splitChar, validateBuildFields, hget, lowerStr, lowerChar, hm2, hbb,
    sign_message, hb64, hver, signed_fields]

/-- C1.  For every key pair whose external RSA primitives verify what they
sign (`hpair`), every URL (hence every host/path), every POST method
spelling, every date and every body: validating the request whose headers
`signed_post` produced, with a checker holding the matching public-key
document (same key id), succeeds with the key owner's identity; and
validating the same headers against any body whose digest differs (any
actual tampering) fails with the digest-mismatch reason.  The key-id URL is
assumed comma- and quote-free, as URLs are. -/
theorem c1_sign_then_verify
    (signFn : Bytes → Bytes) (verifyFn : Bytes → Bytes → Bool)
    (controller : Option Str) (pubUrl url method date : Str) (body : Bytes)
    (hpair : ∀ m, verifyFn (signFn m) m = true)
    (hbytes : ∀ m, (∀ x ∈ m, x < 256) → ∀ x ∈ signFn m, x < 256)
    (hmethod : lowerStr method = ("post").toList)
    (hkc : ',' ∉ pubUrl) (hkq : '\"' ∉ pubUrl) :
    validate ⟨controller, some pubUrl, .rsa, verifyFn⟩ method url
        (signed_post_headers url signFn pubUrl [] body date) body
      = .ok (ValidateResult.mkSuccess controller)
    ∧ ∀ body2, content_digest_sha256 body2 ≠ content_digest_sha256 body →
      validate ⟨controller, some pubUrl, .rsa, verifyFn⟩ method url
          (signed_post_headers url signFn pubUrl [] body date) body2
        = .ok (ValidateResult.mkFail
            (msgDigestMismatch (content_digest_sha256 body2) (content_digest_sha256 body))) := by
  have hs : hget (signed_post_headers url signFn pubUrl [] body date) ("signature").toList
      = some (signed_post_signature_header url signFn pubUrl body date) := rfl
  have hd : hget (signed_post_headers url signFn pubUrl [] body date) ("digest").toList
      = some (content_digest_sha256 body) := rfl
  have hu : upper4 (content_digest_sha256 body) = content_digest_sha256 body := rfl
  constructor
  · unfold validate
    rw [hs]
    dsimp only []
    rw [hmethod, if_pos rfl, hd]
    dsimp only []
    rw [hu, if_pos rfl]
    exact validateTail_roundtrip signFn verifyFn controller pubUrl url method date body
      hpair hbytes hmethod hkc hkq
  · intro body2 hne
    unfold validate
    rw [hs]
    dsimp only []
    rw [hmethod, if_pos rfl, hd]
    dsimp only []
    rw [hu, if_neg hne]

/-- C1 witness: a concrete signer/verifier pair, URL, date and body; the
signed request validates to success, and the same headers with the body
`"bye"` in place of `"hi"` fail with the digest mismatch. -/
theorem c1_sign_then_verify_witness :
    validate ⟨some (("https://example.com/actor").toList),
              some (("https://example.com/actor#main-key").toList), .rsa,
              fun s m => s == m⟩
        (("POST").toList) (("https://example.com/inbox").toList)
        (signed_post_headers (("https://example.com/inbox").toList) (fun m => m)
          (("https://example.com/actor#main-key").toList) []
          (utf8Encode (("hi").toList)) (("Sun, 12 Oct 2026 00:00:00 GMT").toList))
        (utf8Encode (("hi").toList))
      = .ok (ValidateResult.mkSuccess (some (("https://example.com/actor").toList)))
    ∧ validate ⟨some (("https://example.com/actor").toList),
              some (("https://example.com/actor#main-key").toList), .rsa,
              fun s m => s == m⟩
        (("POST").toList) (("https://example.com/inbox").toList)
        (signed_post_headers (("https://example.com/inbox").toList) (fun m => m)
          (("https://example.com/actor#main-key").toList) []
          (utf8Encode (("hi").toList)) (("Sun, 12 Oct 2026 00:00:00 GMT").toList))
        (utf8Encode (("bye").toList))
      = .ok (ValidateResult.mkFail
          (msgDigestMismatch (content_digest_sha256 (utf8Encode (("bye").toList)))
            (content_digest_sha256 (utf8Encode (("hi").toList))))) := by
  have h := c1_sign_then_verify (fun m => m) (fun s m => s == m)
    (some (("https://example.com/actor").toList))
    (("https://example.com/actor#main-key").toList)
    (("https://example.com/inbox").toList)
    (("POST").toList) (("Sun, 12 Oct 2026 00:00:00 GMT").toList)
    (utf8Encode (("hi").toList))
    (fun m => by simp) (fun m h x hx => h x hx) (by decide) (by decide) (by decide)
  exact ⟨h.1, h.2 (utf8Encode (("bye").toList)) (by decide)⟩

/-- C9.  The claim says a body-less signing request omits `digest` and
`content-type` and still succeeds; the code instead computes
`content_digest_sha256(None)`, and `hashlib.sha256(None)` raises
`TypeError` — `signed_post` with no body always raises, for every URL, key,
initial header dict and date, and no digest-free header set is ever built
(code bug: the `body=None` default advertises body-less use, and the spec
describes the intended omission). -/
theorem c9_signed_post_none_raises (url : Str) (signFn : Bytes → Bytes)
    (public_key_url : Str) (headers0 : HeadersMap) (date : Str) :
    signed_post url signFn public_key_url headers0 none date
      = .error ("TypeError: object supporting the buffer API required").toList := rfl

/-- C2 counterexample.  The claim says `validate` always returns the failure
variant on malformed input; here a request whose `Signature` header is the
single malformed parameter `"foo"` (no `="` separator) makes
`parse_signature_header`'s dict comprehension raise `IndexError`, which
escapes `validate` (modelled as `Except.error`), refuting the claim. -/
theorem c2_exception_counterexample :
    validate ⟨some (("o").toList), some (("k").toList), .rsa, fun _ _ => true⟩
        (("GET").toList) (("https://x.com/i").toList)
        [(("signature").toList, ("foo").toList)] []
      = .error ("IndexError: list index out of range").toList := rfl

/-- C2 as amended.  For each of the four malformed-input classes the claim
lists, `SignatureChecker.validate` raises an uncaught Python exception
(`Except.error`) instead of returning the `ValidateResult` failure variant:
a `Signature` parameter without `="` (`IndexError`), a declared headers
field with no matching request header (`KeyError`), a missing digest header
on a POST (`KeyError`), and an undecodable base64 signature
(`binascii.Error`). -/
theorem c2_exceptions_escape_validate :
    validate ⟨some (("o").toList), some (("k").toList), .rsa, fun _ _ => true⟩
        (("GET").toList) (("https://x.com/i").toList)
        [(("signature").toList, ("foo").toList)] []
      = .error ("IndexError: list index out of range").toList
    ∧ validate ⟨some (("o").toList), some (("k").toList), .rsa, fun _ _ => true⟩
        (("GET").toList) (("https://x.com/i").toList)
        [(("signature").toList,
          ("keyId=\"k\",algorithm=\"rsa-sha256\",headers=\"(request-target) date xyz\",signature=\"AAAA\"").toList),
         (("date").toList, ("Sun, 12 Oct 2026 00:00:00 GMT").toList)] []
      = .error ("KeyError: xyz").toList
    ∧ validate ⟨some (("o").toList), some (("k").toList), .rsa, fun _ _ => true⟩
        (("POST").toList) (("https://x.com/i").toList)
        [(("signature").toList, ("anything").toList)] []
      = .error ("KeyError: digest").toList
    ∧ validate ⟨some (("o").toList), some (("k").toList), .rsa, fun _ _ => true⟩
        (("GET").toList) (("https://x.com/i").toList)
        [(("signature").toList,
          ("keyId=\"k\",algorithm=\"rsa-sha256\",headers=\"(request-target) date\",signature=\"abc\"").toList),
         (("date").toList, ("Sun, 12 Oct 2026 00:00:00 GMT").toList)] []
      = .error ("binascii.Error: Invalid padding").toList :=
  ⟨rfl, rfl, rfl, rfl⟩

/-- C3 counterexample.  Two POST requests identical except for the letter
case of one base64 character inside the digest header are *not* treated
identically: the exact-case header passes the digest check and the request
verifies, while the case-flipped header (`p` → `P`) is rejected with a
digest mismatch — the comparison only case-normalizes the first four
characters, not the whole value. -/
theorem c3_case_counterexample :
    lowerStr (("SHA-256=47DEQpj8HBSa+/TImW+5JCeuQeRkm5NMpJWZG3hSuFU=").toList)
      = lowerStr (("SHA-256=47DEQPj8HBSa+/TImW+5JCeuQeRkm5NMpJWZG3hSuFU=").toList)
    ∧ (("SHA-256=47DEQpj8HBSa+/TImW+5JCeuQeRkm5NMpJWZG3hSuFU=").toList : Str)
      ≠ ("SHA-256=47DEQPj8HBSa+/TImW+5JCeuQeRkm5NMpJWZG3hSuFU=").toList
    ∧ validate ⟨some (("o").toList), some (("k").toList), .rsa, fun _ _ => true⟩
        (("POST").toList) (("https://x.com/i").toList)
        [(("host").toList, ("x.com").toList),
         (("date").toList, ("Sun, 12 Oct 2026 00:00:00 GMT").toList),
         (("digest").toList, ("SHA-256=47DEQpj8HBSa+/TImW+5JCeuQeRkm5NMpJWZG3hSuFU=").toList),
         (("signature").toList,
          ("keyId=\"k\",algorithm=\"rsa-sha256\",headers=\"(request-target) host date digest\",signature=\"AAAA\"").toList)] []
      = .ok (ValidateResult.mkSuccess (some (("o").toList)))
    ∧ validate ⟨some (("o").toList), some (("k").toList), .rsa, fun _ _ => true⟩
        (("POST").toList) (("https://x.com/i").toList)
        [(("host").toList, ("x.com").toList),
         (("date").toList, ("Sun, 12 Oct 2026 00:00:00 GMT").toList),
         (("digest").toList, ("SHA-256=47DEQPj8HBSa+/TImW+5JCeuQeRkm5NMpJWZG3hSuFU=").toList),
         (("signature").toList,
          ("keyId=\"k\",algorithm=\"rsa-sha256\",headers=\"(request-target) host date digest\",signature=\"AAAA\"").toList)] []
      = .ok (ValidateResult.mkFail
          (msgDigestMismatch (("SHA-256=47DEQpj8HBSa+/TImW+5JCeuQeRkm5NMpJWZG3hSuFU=").toList)
            (("SHA-256=47DEQPj8HBSa+/TImW+5JCeuQeRkm5NMpJWZG3hSuFU=").toList))) :=
  ⟨by decide, by decide, rfl, rfl⟩

/-- C3 as amended.  On a POST with a signature header present, the
recomputed digest is compared against the digest header after upper-casing
only the header value's first four characters (`req_digest[:4].upper()`):
a mismatch under that normalization is a hard failure carrying the
digest-mismatch reason, before any signature parsing or verification; a
match proceeds to the signature checks.  Case differences beyond the first
four characters are significant. -/
theorem c3_digest_comparison (c : Checker) (method url : Str)
    (headers : HeadersMap) (body : Bytes) (s d : Str)
    (hsig : hget headers ("signature").toList = some s)
    (hmethod : lowerStr method = ("post").toList)
    (hdig : hget headers ("digest").toList = some d) :
    (upper4 d ≠ content_digest_sha256 body →
      validate c method url headers body
        = .ok (ValidateResult.mkFail (msgDigestMismatch (content_digest_sha256 body) (upper4 d))))
    ∧ (upper4 d = content_digest_sha256 body →
      validate c method url headers body
        = validateTail c method url headers (content_digest_sha256 body) s) := by
  constructor <;> intro h
  · unfold validate
    rw [hsig]
    dsimp only []
    rw [hmethod, if_pos rfl, hdig]
    dsimp only []
    rw [if_neg (Ne.symm h)]
  · unfold validate
    rw [hsig]
    dsimp only []
    rw [hmethod, if_pos rfl, hdig]
    dsimp only []
    rw [if_pos h.symm]

/-- C3 witness: the amended comparison applied at the case-flipped concrete
header, yielding the digest-mismatch failure. -/
theorem c3_digest_comparison_witness :
    validate ⟨some (("o").toList), some (("k").toList), .rsa, fun _ _ => true⟩
        (("POST").toList) (("https://x.com/i").toList)
        [(("digest").toList, ("SHA-256=47DEQPj8HBSa+/TImW+5JCeuQeRkm5NMpJWZG3hSuFU=").toList),
         (("signature").toList, ("x").toList)] []
      = .ok (ValidateResult.mkFail
          (msgDigestMismatch (content_digest_sha256 [])
            (upper4 (("SHA-256=47DEQPj8HBSa+/TImW+5JCeuQeRkm5NMpJWZG3hSuFU=").toList)))) :=
  (c3_digest_comparison ⟨some (("o").toList), some (("k").toList), .rsa, fun _ _ => true⟩
    (("POST").toList) (("https://x.com/i").toList)
    [(("digest").toList, ("SHA-256=47DEQPj8HBSa+/TImW+5JCeuQeRkm5NMpJWZG3hSuFU=").toList),
     (("signature").toList, ("x").toList)] []
    (("x").toList) (("SHA-256=47DEQPj8HBSa+/TImW+5JCeuQeRkm5NMpJWZG3hSuFU=").toList)
    rfl (by decide) rfl).1 (by decide)

/-- Past the parse stage, a parsed `keyId` different from the checker's key
id can never reach the verification branch: every normal return is a
failure. -/
theorem validateTail_keyid_mismatch (c : Checker) (method url : Str) (headers : HeadersMap)
    (dig s : Str) (parsed : List (Str × Str)) (kid : Str)
    (hparse : parse_signature_header s = .ok parsed)
    (hkid : dlookupLast parsed ("keyId").toList = some kid)
    (hne : c.key_id ≠ some kid) :
    ∀ r, validateTail c method url headers dig s = .ok r → r.success = false := by
  intro r
  unfold validateTail
  rw [hparse]
  dsimp only []
  split
  · intro h; simp at h
  · split
    · intro h
      injection h with h2
      rw [← h2]
      rfl
    · split
      · intro h
        injection h with h2
        rw [← h2]
        rfl
      · split
        · intro h; simp at h
        · rw [hkid]
          dsimp only []
          rw [if_pos hne]
          intro h
          injection h with h2
          rw [← h2]
          rfl

/-- C4.  Whenever the request's `Signature` header parses to a `keyId`
different from the key id of the resolved actor's public-key document,
`validate` never returns the success variant — every normal return is the
failure variant — regardless of the verification predicate (so even for
signature bytes that verify mathematically, since `c.verify` here is
arbitrary, including constantly-true). -/
theorem c4_keyid_mismatch (c : Checker) (method url : Str) (headers : HeadersMap) (body : Bytes)
    (s : Str) (parsed : List (Str × Str)) (kid : Str)
    (hsig : hget headers ("signature").toList = some s)
    (hparse : parse_signature_header s = .ok parsed)
    (hkid : dlookupLast parsed ("keyId").toList = some kid)
    (hne : c.key_id ≠ some kid) :
    ∀ r, validate c method url headers body = .ok r → r.success = false := by
  intro r
  unfold validate
  rw [hsig]
  dsimp only []
  by_cases hm : lowerStr method = ("post").toList
  · rw [if_pos hm]
    cases hgd : hget headers ("digest").toList with
    | none => intro h; simp at h
    | some rd =>
      dsimp only []
      split
      · exact validateTail_keyid_mismatch c method url headers _ s parsed kid hparse hkid hne r
      · intro h
        injection h with h2
        rw [← h2]
        rfl
  · rw [if_neg hm]
    exact validateTail_keyid_mismatch c method url headers _ s parsed kid hparse hkid hne r

/-- C4 witness: a concrete request whose signature header declares
`keyId="k"` against a checker resolved for key id `other`, with a
constantly-true verification predicate; `validate` returns the key-mismatch
failure and the theorem certifies that return is not the success variant. -/
theorem c4_keyid_mismatch_witness :
    validate ⟨some (("o").toList), some (("other").toList), .rsa, fun _ _ => true⟩
        (("GET").toList) (("https://x.com/i").toList)
        [(("signature").toList,
          ("keyId=\"k\",algorithm=\"rsa-sha256\",headers=\"(request-target) date\",signature=\"AAAA\"").toList),
         (("date").toList, ("Sun, 12 Oct 2026 00:00:00 GMT").toList)] []
      = .ok (ValidateResult.mkFail
          (("Key ID mismatch: expected != parsed ").toList ++ ("k").toList))
    ∧ (ValidateResult.mkFail
        (("Key ID mismatch: expected != parsed ").toList ++ ("k").toList)).success = false :=
  ⟨rfl,
   c4_keyid_mismatch ⟨some (("o").toList), some (("other").toList), .rsa, fun _ _ => true⟩
     (("GET").toList) (("https://x.com/i").toList)
     [(("signature").toList,
       ("keyId=\"k\",algorithm=\"rsa-sha256\",headers=\"(request-target) date\",signature=\"AAAA\"").toList),
      (("date").toList, ("Sun, 12 Oct 2026 00:00:00 GMT").toList)] []
     (("keyId=\"k\",algorithm=\"rsa-sha256\",headers=\"(request-target) date\",signature=\"AAAA\"").toList)
     [(("keyId").toList, ("k").toList),
      (("algorithm").toList, ("rsa-sha256").toList),
      (("headers").toList, ("(request-target) date").toList),
      (("signature").toList, ("AAAA").toList)]
     (("k").toList) rfl rfl rfl (by decide) _ rfl⟩

/-- `notesGet` distributes over table append. -/
theorem notesGet_append (a b : NoteTable) (u : Str) :
    notesGet (a ++ b) u = notesGet a u ++ notesGet b u := by
  simp [notesGet, List.filter_append]

/-- The in-place body update `upsert` performs commutes with the
content-URL lookup: updated rows keep their URL. -/
theorem notesGet_map_update (notes : NoteTable) (u cb : Str) :
    notesGet (notes.map (fun n => if n.contentUrl = u then { n with content := cb } else n)) u
      = (notesGet notes u).map (fun n => { n with content := cb }) := by
  induction notes with
  | nil => rfl
  | cons n rest ih =>
    simp only [notesGet] at ih ⊢
    simp only [List.map_cons, List.filter_cons]
    by_cases hn : n.contentUrl = u
    · simp [hn, ih]
    · simp [hn, ih]

/-- C5.  From any table in which the content URL `u` names at most one row
(the state the unique-URL discipline guarantees), `upsert(u, \"a\")` followed
by `upsert(u, \"b\")` succeeds, leaves exactly one stored row with content
URL `u`, that row's body is `\"b\"`, and the second call triggers the Update
fan-out, never a Create. -/
theorem c5_upsert_idempotent (notes : NoteTable) (actor ca cb u : Str)
    (hinv : (notesGet notes u).length ≤ 1) :
    ∃ s1 f1, noteUpsert notes actor ca u = .ok (s1, f1)
    ∧ ∃ s2, noteUpsert s1 actor cb u = .ok (s2, Fanout.update)
      ∧ (notesGet s2 u).length = 1
      ∧ ∀ n ∈ notesGet s2 u, n.content = cb := by
  cases h : notesGet notes u with
  | nil =>
    have h1 : noteUpsert notes actor ca u
        = .ok (notes ++ [freshLocalNote actor ca u], Fanout.create) := by
      unfold noteUpsert
      rw [h]
    have h2 : notesGet (notes ++ [freshLocalNote actor ca u]) u
        = [freshLocalNote actor ca u] := by
      rw [notesGet_append, h]
      simp [notesGet, freshLocalNote]
    have h3 : noteUpsert (notes ++ [freshLocalNote actor ca u]) actor cb u
        = .ok ((notes ++ [freshLocalNote actor ca u]).map
            (fun n => if n.contentUrl = u then { n with content := cb } else n), Fanout.update) := by
      unfold noteUpsert
      rw [h2]
    have h4 : notesGet ((notes ++ [freshLocalNote actor ca u]).map
          (fun n => if n.contentUrl = u then { n with content := cb } else n)) u
        = [freshLocalNote actor cb u] := by
      rw [notesGet_map_update, h2]
      rfl
    refine ⟨_, _, h1, _, h3, ?_, ?_⟩
    · rw [h4]
      rfl
    · rw [h4]
      intro n hn
      simp at hn
      rw [hn]
      rfl
  | cons x t =>
    cases t with
    | cons y t2 =>
      rw [h] at hinv
      simp at hinv
    | nil =>
      have h1 : noteUpsert notes actor ca u
          = .ok (notes.map (fun n => if n.contentUrl = u then { n with content := ca } else n), Fanout.update) := by
        unfold noteUpsert
        rw [h]
      have h2 : notesGet (notes.map (fun n => if n.contentUrl = u then { n with content := ca } else n)) u
          = [{ x with content := ca }] := by
        rw [notesGet_map_update, h]
        rfl
      have h3 : noteUpsert (notes.map (fun n => if n.contentUrl = u then { n with content := ca } else n)) actor cb u
          = .ok ((notes.map (fun n => if n.contentUrl = u then { n with content := ca } else n)).map
              (fun n => if n.contentUrl = u then { n with content := cb } else n), Fanout.update) := by
        unfold noteUpsert
        rw [h2]
      have h4 : notesGet ((notes.map (fun n => if n.contentUrl = u then { n with content := ca } else n)).map
            (fun n => if n.contentUrl = u then { n with content := cb } else n)) u
          = [{ x with content := cb }] := by
        rw [notesGet_map_update, h2]
        rfl
      refine ⟨_, _, h1, _, h3, ?_, ?_⟩
      · rw [h4]
        rfl
      · rw [h4]
        intro n hn
        simp at hn
        rw [hn]

/-- C5 witness: the two upserts on an empty table at a concrete URL. -/
theorem c5_upsert_idempotent_witness :
    ∃ s1 f1, noteUpsert [] (("alice").toList) (("a").toList) (("https://n/1").toList)
        = .ok (s1, f1)
    ∧ ∃ s2, noteUpsert s1 (("alice").toList) (("b").toList) (("https://n/1").toList)
        = .ok (s2, Fanout.update)
      ∧ (notesGet s2 (("https://n/1").toList)).length = 1
      ∧ ∀ n ∈ notesGet s2 (("https://n/1").toList), n.content = ("b").toList :=
  c5_upsert_idempotent [] (("alice").toList) (("a").toList) (("b").toList)
    (("https://n/1").toList) (by decide)

/-- C6.  From any Follower table satisfying the uniqueness invariant (at
most one row per (remote, local) pair — the reachable states under the
database constraint), the inbox `Follow` mutation (`get_or_create`) and the
`Undo(Follow)` mutation (`remove`) both preserve the invariant, a second
`Follow` from the same remote actor for the same local actor is a no-op on
the table (not an error), and after the duplicate exactly one edge exists
for the pair. -/
theorem c6_follower_unique (t : FollowerTable) (r l : Str) (hinv : FollowerInv t) :
    FollowerInv (followerGetOrCreate t r l)
    ∧ FollowerInv (followersRemove t r l)
    ∧ followerGetOrCreate (followerGetOrCreate t r l) r l = followerGetOrCreate t r l
    ∧ (followerGetOrCreate t r l).count (r, l) = 1 := by
  refine ⟨?_, ?_, ?_, ?_⟩
  · intro p
    unfold followerGetOrCreate
    by_cases hm : (r, l) ∈ t
    · rw [if_pos hm]
      exact hinv p
    · rw [if_neg hm]
      rw [List.count_append]
      by_cases hp : p = (r, l)
      · have h0 : t.count p = 0 := by
          rw [List.count_eq_zero]
          rw [hp]
          exact hm
        rw [h0]
        simp [hp]
      · have h1 : List.count p [(r, l)] = 0 := List.count_eq_zero.mpr (by simp [hp])
        rw [h1]
        simpa using hinv p
  · intro p
    unfold followersRemove
    exact le_trans ((List.filter_sublist t).count_le p) (hinv p)
  · unfold followerGetOrCreate
    by_cases hm : (r, l) ∈ t <;> simp [hm]
  · unfold followerGetOrCreate
    by_cases hm : (r, l) ∈ t
    · rw [if_pos hm]
      have h1 := hinv (r, l)
      have h2 : 0 < t.count (r, l) := List.count_pos_iff.mpr hm
      omega
    · rw [if_neg hm]
      rw [List.count_append]
      have h0 : t.count (r, l) = 0 := List.count_eq_zero.mpr hm
      rw [h0]
      simp

/-- C6 witness: duplicate Follow on the empty table at a concrete pair —
the second call leaves the table unchanged and exactly one edge exists. -/
theorem c6_follower_unique_witness :
    followerGetOrCreate (followerGetOrCreate [] (("https://r/a").toList) (("alice").toList))
        (("https://r/a").toList) (("alice").toList)
      = followerGetOrCreate [] (("https://r/a").toList) (("alice").toList)
    ∧ (followerGetOrCreate [] (("https://r/a").toList) (("alice").toList)).count
        ((("https://r/a").toList), (("alice").toList)) = 1 :=
  ⟨(c6_follower_unique [] (("https://r/a").toList) (("alice").toList)
      (fun p => by simp)).2.2.1,
   (c6_follower_unique [] (("https://r/a").toList) (("alice").toList)
      (fun p => by simp)).2.2.2⟩

/-- C7 counterexample.  An `Undo(Follow)` whose remote actor is known
locally (its `RemoteActor` row exists, e.g. from a Like) but never followed
the target (no Follower edge) is acknowledged with the success envelope
(`200`, `{'ok': true}`) and no state change — not the client-error rejection
the claim requires. -/
theorem c7_undo_follow_counterexample :
    inboxUndoFollow [("https://r/a").toList] [] (("alice").toList) (("alice").toList)
        (("https://r/a").toList) = (200, [])
    ∧ (200 : Nat) ≠ 400 ∧ (200 : Nat) ≠ 404 := ⟨rfl, by decide, by decide⟩

/-- C7 as amended.  The `Undo(Follow)` branch rejects (`404`, via
`get_object_or_404(RemoteActor, ...)`) only when the remote actor record
itself is unknown locally; when the record exists but no Follower edge does,
Django's m2m `remove` is a silent no-op and the inbox acknowledges success
with the Follower table unchanged.  (Both parts assume the actor-binding
check passed, i.e. the undone Follow's object resolved to the target
actor.) -/
theorem c7_undo_follow_unknown_actor (remotes : List Str) (t : FollowerTable) (actorId undoActor : Str) :
    (undoActor ∉ remotes → inboxUndoFollow remotes t actorId actorId undoActor = (404, t))
    ∧ (undoActor ∈ remotes → (undoActor, actorId) ∉ t →
        inboxUndoFollow remotes t actorId actorId undoActor = (200, t)) := by
  constructor
  · intro h
    unfold inboxUndoFollow
    rw [if_neg (fun hh => hh rfl), if_pos h]
  · intro h hm
    unfold inboxUndoFollow
    rw [if_neg (fun hh => hh rfl), if_neg (fun hh => hh h)]
    have : followersRemove t undoActor actorId = t := by
      unfold followersRemove
      rw [List.filter_eq_self]
      intro e he
      simp
      exact fun hh => hm (hh ▸ he)
    rw [this]

/-- C7 witness: the amended behavior at concrete inputs — unknown remote
actor is rejected with 404; known remote actor with no edge yields the
success acknowledgement with no state change. -/
theorem c7_undo_follow_unknown_actor_witness :
    inboxUndoFollow [] [] (("alice").toList) (("alice").toList) (("https://r/a").toList)
      = (404, [])
    ∧ inboxUndoFollow [("https://r/a").toList] [] (("alice").toList) (("alice").toList)
        (("https://r/a").toList) = (200, []) :=
  ⟨(c7_undo_follow_unknown_actor [] [] (("alice").toList) (("https://r/a").toList)).1
     (by simp),
   (c7_undo_follow_unknown_actor [("https://r/a").toList] [] (("alice").toList)
      (("https://r/a").toList)).2 (by simp) (by simp)⟩

/-- C8.  The claim (and §4.4) says a handle whose WebFinger document has no
usable self link resolves to a distinguished "no profile" result without
raising.  In the code, `finger` always includes the `'profile'` key (bound
to Python `None` when no link matched), so the guard `'profile' not in
data` never fires and `data['profile'].get('id')` raises `AttributeError` —
for every uncached handle and every profile fetcher (code bug: the guard's
evident intent is the claimed `None` return). -/
theorem c8_no_self_link_raises (fetchProfile : Str → RemoteProfile)
    (username domain : Str) :
    getOrCreateWithUsernameDomain [] fetchProfile [] username domain
      = .error ("AttributeError: 'NoneType' object has no attribute 'get'").toList := rfl

/-- C10 counterexample.  `upsert_remote` applied to a content URL that
already names a locally authored Note keeps `local_actor` while setting
`remote_actor`: the saved row has both authors set, violating the claimed
exclusivity. -/
theorem c10_exclusivity_counterexample :
    upsertRemote
        (fun _ => ⟨("https://n/1").toList, ("https://remote/bob").toList, ("2024-01-01T00:00:00Z").toList, ("y").toList, none⟩)
        (("https://local").toList) 1
        [freshLocalNote (("alice").toList) (("x").toList) (("https://n/1").toList)]
        (("https://n/1").toList)
      = .ok ([⟨some (("alice").toList), some (("https://remote/bob").toList), ("y").toList, ("https://n/1").toList, ("2024-01-01T00:00:00Z").toList, none⟩],
             ⟨some (("alice").toList), some (("https://remote/bob").toList), ("y").toList, ("https://n/1").toList, ("2024-01-01T00:00:00Z").toList, none⟩)
    ∧ rowExclusive ⟨some (("alice").toList), some (("https://remote/bob").toList), ("y").toList, ("https://n/1").toList, ("2024-01-01T00:00:00Z").toList, none⟩ = false :=
  ⟨rfl, rfl⟩

/-- C10 as amended.  `upsert` preserves author exclusivity (fresh rows are
exclusively local, updates keep authors); `upsert_remote` creating a fresh
row yields an exclusively remote row; but `upsert_remote` applied to a
content URL whose existing row is locally authored produces a row with both
`local_actor` and `remote_actor` set — exclusivity is not preserved there.
(The remote-document cases shown are the parent-free ones the
counterexample exercises.) -/
theorem c10_author_exclusivity :
    (∀ notes actor content u s f, (∀ n ∈ notes, rowExclusive n = true) →
      noteUpsert notes actor content u = .ok (s, f) → ∀ n ∈ s, rowExclusive n = true)
    ∧ (∀ (fetchFn : Str → RemoteDoc) (base : Str) (fuel : Nat) (notes : NoteTable) (objId : Str),
        notesGet notes (fetchFn objId).docId = [] → (fetchFn objId).inReplyTo = none →
        upsertRemote fetchFn base (fuel + 1) notes objId
          = .ok (notes ++ [⟨none, some (fetchFn objId).attributedTo, (fetchFn objId).content, objId, (fetchFn objId).published, none⟩],
                 ⟨none, some (fetchFn objId).attributedTo, (fetchFn objId).content, objId, (fetchFn objId).published, none⟩))
    ∧ (∀ (fetchFn : Str → RemoteDoc) (base : Str) (fuel : Nat) (notes : NoteTable) (objId : Str) (n : NoteRec),
        notesGet notes (fetchFn objId).docId = [n] → (fetchFn objId).inReplyTo = none →
        n.localActor.isSome = true →
        ∀ s1 row, upsertRemote fetchFn base (fuel + 1) notes objId = .ok (s1, row) →
          row.localActor.isSome = true ∧ row.remoteActor.isSome = true) := by
  refine ⟨?_, ?_, ?_⟩
  · intro notes actor content u s f hex hup n hn
    unfold noteUpsert at hup
    cases hg : notesGet notes u with
    | nil =>
      rw [hg] at hup
      injection hup with hup2
      injection hup2 with hs hf
      rw [← hs] at hn
      rcases List.mem_append.mp hn with h | h
      · exact hex n h
      · simp at h
        rw [h]
        rfl
    | cons x t =>
      cases t with
      | nil =>
        rw [hg] at hup
        injection hup with hup2
        injection hup2 with hs hf
        rw [← hs] at hn
        rcases List.mem_map.mp hn with ⟨m, hm, rfl⟩
        by_cases hmu : m.contentUrl = u
        · rw [if_pos hmu]
          have := hex m hm
          unfold rowExclusive at this ⊢
          simpa using this
        · rw [if_neg hmu]
          exact hex m hm
      | cons y t2 =>
        rw [hg] at hup
        simp at hup
  · intro fetchFn base fuel notes objId hfound hreply
    unfold upsertRemote
    dsimp only []
    rw [hfound, hreply]
  · intro fetchFn base fuel notes objId n hfound hreply hloc s1 row hup
    unfold upsertRemote at hup
    dsimp only [] at hup
    rw [hfound, hreply] at hup
    dsimp only [] at hup
    injection hup with hup2
    injection hup2 with hs hrow
    rw [← hrow]
    constructor
    · exact hloc
    · rfl

/-- C10 witness: the amended statement applied at the counterexample's
concrete inputs — the row saved over the locally authored Note has both
authors set. -/
theorem c10_author_exclusivity_witness :
    (⟨some (("alice").toList), some (("https://remote/bob").toList), ("y").toList, ("https://n/1").toList, ("2024-01-01T00:00:00Z").toList, none⟩ : NoteRec).localActor.isSome = true
    ∧ (⟨some (("alice").toList), some (("https://remote/bob").toList), ("y").toList, ("https://n/1").toList, ("2024-01-01T00:00:00Z").toList, none⟩ : NoteRec).remoteActor.isSome = true :=
  c10_author_exclusivity.2.2
    (fun _ => ⟨("https://n/1").toList, ("https://remote/bob").toList, ("2024-01-01T00:00:00Z").toList, ("y").toList, none⟩)
    (("https://local").toList) 0
    [freshLocalNote (("alice").toList) (("x").toList) (("https://n/1").toList)]
    (("https://n/1").toList)
    (freshLocalNote (("alice").toList) (("x").toList) (("https://n/1").toList))
    rfl rfl rfl _ _ rfl
